import Mathlib

/-!
Verification of the rsgeo geometry core against its design specification.

The development shallowly embeds the Rust sources `src/rust/src/lib.rs`
(coordinate conversion and geometry constructors) and `src/rust/src/query.rs`
(the line segmentation engine: `split_line` and `segmentize`).

Modelling conventions:
* Rust `f64` values are modelled as real numbers (`ℝ`).  Every concrete input
  used below involves only small integers, quarters and halves, values and
  intermediate results that are exactly representable in binary64, so on these
  inputs the real-number trace and the floating-point trace of the code
  coincide step by step.  (One divergence is unavoidable: `ℝ` has no infinity
  or NaN, and Lean defines `x / 0 = 0`.  The only place this matters is
  `segmentize` with `n = 0`, where the Rust code computes `1.0 / 0.0 = +inf`;
  the concrete input used for that claim has a single line segment, which the
  loop never examines, so the two semantics again agree on the output.)
* Rust iterators over line segments are modelled as explicit `List Line`
  values; `Iterator::nth(0)`, which *consumes* the first element, is modelled
  by pattern matching the segment list into head and tail and handing only the
  tail to the loop.
* Rust panics (`unwrap` on a missing first segment, indexing an empty list)
  are modelled by `Option`, with `none` for the aborted computation.
-/

namespace Rsgeo

/-- A planar coordinate, geo-types `Coord`: an (x, y) pair.  `f64` in the
source, modelled as `ℝ` (see the file docstring). -/
structure Coord where
  x : ℝ
  y : ℝ

/-- A straight line segment between two coordinates, geo-types `Line`.
The source field `end` is a Lean keyword, so it is named `endp` here. -/
structure Line where
  start : Coord
  endp : Coord

/-- Modelled from the spec: the Euclidean length collaborator (spec §1 (a)),
`Line::euclidean_length` of the external geo library, used by `split_line`
and `segmentize` in `query.rs`.  It is the straight-line distance
`sqrt (dx^2 + dy^2)` between the two endpoints of a segment. -/
noncomputable def euclidean_length (l : Line) : ℝ :=
  Real.sqrt ((l.endp.x - l.start.x) ^ 2 + (l.endp.y - l.start.y) ^ 2)

/-- The segments between consecutive coordinates of a path:
`LineString::lines_iter()` of the source, as a list. -/
def linesOf : List Coord → List Line
  | a :: b :: rest => ⟨a, b⟩ :: linesOf (b :: rest)
  | _ => []

/-- Modelled from the spec: `LineString::euclidean_length` of the external geo
library (`x.euclidean_length()` in `query.rs`): the sum of the Euclidean
lengths of the consecutive segments. -/
noncomputable def pathLength (coords : List Coord) : ℝ :=
  ((linesOf coords).map euclidean_length).sum

/-- Modelled from the spec: the linear-interpolation collaborator
(spec §1 (b)), `Line::line_interpolate_point` of the external geo library.
For a parameter t in [0,1] it returns `start + (end - start) * t`; the
library clamps out-of-range parameters to the nearest endpoint (negative
parameters, which `segmentize` produces, yield the segment start).  Over `ℝ`
the library's finite/NaN checks are vacuous, so the result is total. -/
noncomputable def line_interpolate_point (l : Line) (fraction : ℝ) : Coord :=
  if 0 ≤ fraction ∧ fraction ≤ 1 then
    ⟨l.start.x + (l.endp.x - l.start.x) * fraction,
     l.start.y + (l.endp.y - l.start.y) * fraction⟩
  else if fraction < 0 then l.start
  else l.endp

/-- The `for segment in lns` loop of `split_line` (`query.rs` lines 256-267),
over the segments remaining after `lns.nth(0)` consumed the first one.
State: remaining segments, `cum_length`, and the output buffer `ln_vec`.
When `cum_length + length >= fractional_length` the loop interpolates at
`(fractional_length - cum_length) / length`, pushes that point and breaks;
otherwise it pushes `segment.start` and continues. -/
noncomputable def splitLineLoop (fracLen : ℝ) :
    List Line → ℝ → List Coord → List Coord
  | [], _, buf => buf
  | s :: rest, cum, buf =>
      if fracLen ≤ cum + euclidean_length s then
        buf ++ [line_interpolate_point s ((fracLen - cum) / euclidean_length s)]
      else
        splitLineLoop fracLen rest (cum + euclidean_length s) (buf ++ [s.start])

/-- `split_line` of `query.rs` (lines 232-272).  The output buffer is seeded
with `lns.nth(0).unwrap().start` — the first coordinate — but `nth(0)` also
consumes the first segment, so the loop walks only the segments from the
second onwards (and the first segment's length never enters `cum_length`).
`fractional_length = total_length * fraction`.  A linestring with fewer than
two coordinates makes `lns.nth(0).unwrap()` panic: modelled as `none`. -/
noncomputable def split_line (coords : List Coord) (fraction : ℝ) :
    Option (List Coord) :=
  match coords with
  | c0 :: c1 :: rest =>
      some (splitLineLoop (pathLength (c0 :: c1 :: rest) * fraction)
        (linesOf (c1 :: rest)) 0 [c0])
  | _ => none

/-- The `for segment in lns` loop of `segmentize` (`query.rs` lines 310-348).
State: remaining segments, `cum_length`, current target `fraction`,
`fractional_length`, the open buffer `ln_vec`, and the finished pieces
`res_coords`.  The loop first adds the segment length to `cum_length`; if
`cum_length >= fractional_length` it interpolates at
`(fractional_length - cum_length) / length` (a nonpositive parameter, which
the interpolation collaborator clamps to the segment start), pushes that
point, closes the buffer into `res_coords`, reopens the buffer with the same
point, and advances the target by `segment_prop`; in both cases it then
pushes `segment.end`.  After the loop the open buffer is emitted. -/
noncomputable def segmentizeLoop (prop total : ℝ) :
    List Line → ℝ → ℝ → ℝ → List Coord → List (List Coord) → List (List Coord)
  | [], _, _, _, buf, res => res ++ [buf]
  | s :: rest, cum, fraction, fracLen, buf, res =>
      if fracLen ≤ cum + euclidean_length s then
        segmentizeLoop prop total rest (cum + euclidean_length s)
          (fraction + prop) (total * (fraction + prop))
          [line_interpolate_point s
              ((fracLen - (cum + euclidean_length s)) / euclidean_length s),
            s.endp]
          (res ++ [buf ++ [line_interpolate_point s
              ((fracLen - (cum + euclidean_length s)) / euclidean_length s)]])
      else
        segmentizeLoop prop total rest (cum + euclidean_length s)
          fraction fracLen (buf ++ [s.endp]) res

/-- `segmentize` of `query.rs` (lines 276-360).  `segment_prop = 1 / n`
(real division of `f64` values in the source; its `n` is an `i32`, of which
only the values `0, 1, 2, ...` are exercised by the spec, so `ℕ` is used
here), the first target fraction is `segment_prop`, and
`fractional_length = total_length * fraction`.  As in `split_line`, seeding
the buffer with `lns.nth(0).unwrap().start` consumes the first segment, so
the loop walks only the remaining segments.  Fewer than two coordinates make
the `unwrap` panic: modelled as `none`. -/
noncomputable def segmentize (coords : List Coord) (n : ℕ) :
    Option (List (List Coord)) :=
  match coords with
  | c0 :: c1 :: rest =>
      some (segmentizeLoop (1 / (n : ℝ)) (pathLength (c0 :: c1 :: rest))
        (linesOf (c1 :: rest)) 0 (1 / (n : ℝ))
        (pathLength (c0 :: c1 :: rest) * (1 / (n : ℝ))) [c0] [])
  | _ => none

/-- `matrix_to_coords` of `lib.rs` (lines 331-347).  The table is modelled as
its list of rows, each row an (x, y) pair (the claims only exercise 2-column
tables; a table with a different column count panics in the source before
this loop runs).  The source iterates `for i in 0..(n - 1)`, i.e. over the
first `n - 1` rows only.  (For `n = 0` the source's `0..(n - 1)` underflows
`usize` and panics; `ℕ` truncated subtraction makes this case return `[]`
here — no claim exercises it.) -/
def matrix_to_coords (x : List (ℝ × ℝ)) : List Coord :=
  (x.take (x.length - 1)).map (fun r => ⟨r.1, r.2⟩)

/-- `rs_linestring` of `lib.rs` (lines 140-145): a LineString is built
directly from `matrix_to_coords`. -/
def rs_linestring (x : List (ℝ × ℝ)) : List Coord := matrix_to_coords x

/-- A polygon, geo-types `Polygon`: one exterior ring and a list of interior
rings (holes). -/
structure Polygon where
  exterior : List Coord
  interiors : List (List Coord)

/-- `rs_polygon` of `lib.rs` (lines 274-293).  Ring `0` becomes the exterior;
when `n > 1` the holes are collected by `for i in 1..(n - 1)`, i.e. rings
`1` to `n - 2` — the last ring is never read.  Indexing `x[0]` of an empty
list aborts the call in the source: modelled as `none`. -/
def rs_polygon (x : List (List (ℝ × ℝ))) : Option Polygon :=
  match x with
  | [] => none
  | x0 :: xs =>
      some ⟨matrix_to_coords x0,
        if 1 < xs.length + 1 then
          (xs.take (xs.length + 1 - 2)).map matrix_to_coords
        else []⟩

/-- Adjacency of two pieces of a segmentation: the last coordinate of the
first piece is the first coordinate of the second. -/
def pieceLink (p q : List Coord) : Prop := p.getLast? = q.head?

/-- Helper: evaluate a square root at a perfect square. -/
lemma sqrt_eval {a b : ℝ} (hb : 0 ≤ b) (hab : a = b ^ 2) : Real.sqrt a = b := by
  rw [hab, Real.sqrt_sq hb]

/-- Helper: evaluate the Euclidean length of a concrete segment. -/
lemma elen_eval (l : Line) {d : ℝ} (hd : 0 ≤ d)
    (h : (l.endp.x - l.start.x) ^ 2 + (l.endp.y - l.start.y) ^ 2 = d ^ 2) :
    euclidean_length l = d := by
  unfold euclidean_length
  exact sqrt_eval hd h

/-- Helper: length of the horizontal segment (0,0)-(10,0). -/
lemma elen_h10 : euclidean_length ⟨⟨0, 0⟩, ⟨10, 0⟩⟩ = 10 :=
  elen_eval _ (by norm_num) (by norm_num)

/-- Helper: length of the vertical segment (10,0)-(10,10). -/
lemma elen_v10 : euclidean_length ⟨⟨10, 0⟩, ⟨10, 10⟩⟩ = 10 :=
  elen_eval _ (by norm_num) (by norm_num)

/-- Helper: total length of the L-shaped test path [(0,0),(10,0),(10,10)]. -/
lemma plen_L3 : pathLength [⟨0, 0⟩, ⟨10, 0⟩, ⟨10, 10⟩] = 20 := by
  simp [pathLength, linesOf, elen_h10, elen_v10]
  norm_num

/-- Helper: length of the horizontal segment (0,0)-(3,0). -/
lemma elen_h3 : euclidean_length ⟨⟨0, 0⟩, ⟨3, 0⟩⟩ = 3 :=
  elen_eval _ (by norm_num) (by norm_num)

/-- Helper: length of the vertical segment (3,0)-(3,4). -/
lemma elen_v4 : euclidean_length ⟨⟨3, 0⟩, ⟨3, 4⟩⟩ = 4 :=
  elen_eval _ (by norm_num) (by norm_num)

/-- Helper: length of the diagonal segment (0,0)-(3,4). -/
lemma elen_d5 : euclidean_length ⟨⟨0, 0⟩, ⟨3, 4⟩⟩ = 5 :=
  elen_eval _ (by norm_num) (by norm_num)

/-- Helper: total length of the right-angle test path [(0,0),(3,0),(3,4)]. -/
lemma plen_L4 : pathLength [⟨0, 0⟩, ⟨3, 0⟩, ⟨3, 4⟩] = 7 := by
  simp [pathLength, linesOf, elen_h3, elen_v4]
  norm_num

/-- Claim C1: the table-to-coordinates conversion must turn every row of a
2-column table, in row order, into one coordinate (column 0 the x, column 1
the y).  The source loop `for i in 0..(n - 1)` drops the last row: this
3-row table yields only 2 coordinates. -/
theorem C1_matrix_to_coords_drops_last_row :
    matrix_to_coords [(0, 0), (1, 1), (2, 2)] = [⟨0, 0⟩, ⟨1, 1⟩] := rfl

/-- Claim C6: `segmentize(L, 0)` is claimed to be rejected at the start with
a `RangeError`.  The source performs no validation of `n`: on this two-point
line it returns a one-element result sequence (`some`, not a failure).  (In
the source `1.0 / 0.0 = +inf`, so the boundary target is unreachable; the
loop body never runs on a single-segment line, so this evaluation agrees
with the floating-point trace.) -/
theorem C6_segmentize_zero_returns_result :
    segmentize [⟨0, 0⟩, ⟨10, 0⟩] 0 = some [[⟨0, 0⟩]] := rfl

/-- Claim C9: a polygon built from k rings is claimed to have the remaining
k - 1 rings as holes.  The source loop `for i in 1..(n - 1)` skips the last
ring: two rings produce a polygon with no holes at all (and
`matrix_to_coords` also drops the closing row of the exterior ring). -/
theorem C9_rs_polygon_drops_last_ring :
    rs_polygon [[(0, 0), (4, 0), (4, 4), (0, 0)], [(1, 1), (2, 1), (2, 2), (1, 1)]]
      = some ⟨[⟨0, 0⟩, ⟨4, 0⟩, ⟨4, 4⟩], []⟩ := rfl

/-- Claim C2: `segmentize` is claimed to return exactly n pieces of length
totalLength/n each.  On L = [(0,0),(10,0),(10,10)] with n = 4 the source
returns only 2 pieces (the first of length 10, not 5): seeding the buffer
consumed the first segment, so its length never enters `cum_length` and only
one boundary is ever found.  (The n = 2 instance quoted in the claim happens
to produce the expected two pieces because the skipped first segment's
length, 10, coincides with totalLength/2.) -/
theorem C2_segmentize_four_gives_two_pieces :
    segmentize [⟨0, 0⟩, ⟨10, 0⟩, ⟨10, 10⟩] 4
      = some [[⟨0, 0⟩, ⟨10, 0⟩], [⟨10, 0⟩, ⟨10, 10⟩]] := by
  simp only [segmentize, linesOf, segmentizeLoop, plen_L3, elen_v10,
    line_interpolate_point]
  norm_num

/-- Claim C3: `split_line(L, 0.5)` on L = [(0,0),(10,0),(10,10)] is claimed
to return the length-10 prefix ending at (10,0).  The source instead returns
[(0,0),(10,10)]: the first segment was consumed while seeding the output, so
the walk starts on the second segment with `cum_length = 0` and interpolates
at parameter 1, landing on the far corner. -/
theorem C3_split_line_half_wrong_prefix :
    split_line [⟨0, 0⟩, ⟨10, 0⟩, ⟨10, 10⟩] (1 / 2)
      = some [⟨0, 0⟩, ⟨10, 10⟩] := by
  simp only [split_line, linesOf, splitLineLoop, plen_L3, elen_v10,
    line_interpolate_point]
  norm_num

/-- Claim C4: `split_line(L, 1.0)` is claimed to return a linestring of the
same total length as L ending at L's last coordinate.  On
L = [(0,0),(10,0),(10,10)] the source returns [(0,0),(10,0)]: total length
10 instead of 20, and endpoint (10,0), not L's last coordinate (10,10).
The walk "completes without triggering the stop condition", yet the output
is not the original line — the loop pushes each segment's start, never the
final end coordinate. -/
theorem C4_split_line_one_truncates :
    split_line [⟨0, 0⟩, ⟨10, 0⟩, ⟨10, 10⟩] 1 = some [⟨0, 0⟩, ⟨10, 0⟩] ∧
      pathLength [⟨0, 0⟩, ⟨10, 0⟩] = 10 ∧
      pathLength [⟨0, 0⟩, ⟨10, 0⟩, ⟨10, 10⟩] = 20 ∧
      (⟨10, 0⟩ : Coord) ≠ ⟨10, 10⟩ := by
  refine ⟨?_, ?_, plen_L3, ?_⟩
  · simp only [split_line, linesOf, splitLineLoop, plen_L3, elen_v10]
    norm_num
  · simp [pathLength, linesOf, elen_h10]
  · intro h
    have := congrArg Coord.y h
    norm_num at this

/-- Claim C5: `segmentize(L, 1)` is claimed to return the original line as a
single-element sequence.  On L = [(0,0),(10,0),(10,10)] the source returns a
single piece [(0,0),(10,10)], which is not L: the coordinate (10,0) is
dropped because the first segment was consumed while seeding the buffer. -/
theorem C5_segmentize_one_not_original :
    segmentize [⟨0, 0⟩, ⟨10, 0⟩, ⟨10, 10⟩] 1 = some [[⟨0, 0⟩, ⟨10, 10⟩]] ∧
      [[(⟨0, 0⟩ : Coord), ⟨10, 10⟩]] ≠ [[⟨0, 0⟩, ⟨10, 0⟩, ⟨10, 10⟩]] := by
  constructor
  · simp only [segmentize, linesOf, segmentizeLoop, plen_L3, elen_v10]
    norm_num
  · simp

/-- Claim C7: the pieces of `segmentize(L, n)` are claimed to have lengths
summing to the length of L.  On L = [(0,0),(3,0),(3,4)] with n = 1 the
source returns the single piece [(0,0),(3,4)] of length 5, while L has
length 7 — a discrepancy of 2, far beyond floating-point tolerance (all
values here are exact in binary64). -/
theorem C7_segmentize_length_not_preserved :
    segmentize [⟨0, 0⟩, ⟨3, 0⟩, ⟨3, 4⟩] 1 = some [[⟨0, 0⟩, ⟨3, 4⟩]] ∧
      pathLength [⟨0, 0⟩, ⟨3, 4⟩] = 5 ∧
      pathLength [⟨0, 0⟩, ⟨3, 0⟩, ⟨3, 4⟩] = 7 := by
  refine ⟨?_, ?_, plen_L4⟩
  · simp only [segmentize, linesOf, segmentizeLoop, plen_L4, elen_v4]
    norm_num
  · simp [pathLength, linesOf, elen_d5]

/-- Helper: the head of a nonempty list is unchanged by appending. -/
lemma head_of_append {α : Type} {l : List α} (hl : l ≠ []) (t : List α) :
    (l ++ t).head? = l.head? := by
  cases l with
  | nil => exact absurd rfl hl
  | cons a r => rfl

/-- Helper: appending one more coordinate to the open buffer preserves the
chain of piece links. -/
lemma chain_extend {res : List (List Coord)} {buf : List Coord}
    (hbuf : buf ≠ []) (h : List.Chain' pieceLink (res ++ [buf])) (c : Coord) :
    List.Chain' pieceLink (res ++ [buf ++ [c]]) := by
  rw [List.chain'_append] at h ⊢
  refine ⟨h.1, List.chain'_singleton _, ?_⟩
  intro p hp q hq
  simp only [List.head?_cons, Option.mem_def, Option.some.injEq] at hq
  subst hq
  have hlink : pieceLink p buf := h.2.2 p hp buf (by simp)
  unfold pieceLink at hlink ⊢
  rw [head_of_append hbuf [c]]
  exact hlink

/-- Helper: closing the buffer at a boundary point and reopening a new buffer
seeded with that same point preserves the chain of piece links. -/
lemma chain_close {res : List (List Coord)} {buf : List Coord}
    (hbuf : buf ≠ []) (h : List.Chain' pieceLink (res ++ [buf])) (e c : Coord) :
    List.Chain' pieceLink ((res ++ [buf ++ [e]]) ++ [[e, c]]) := by
  rw [List.chain'_append]
  refine ⟨chain_extend hbuf h e, List.chain'_singleton _, ?_⟩
  intro p hp q hq
  simp only [List.head?_cons, Option.mem_def, Option.some.injEq] at hq
  subst hq
  rw [List.getLast?_concat, Option.mem_def, Option.some.injEq] at hp
  subst hp
  unfold pieceLink
  rw [List.getLast?_concat]
  rfl

/-- Helper: the segmentize loop preserves the chain of piece links, for any
state whose open buffer is nonempty and already linked to the finished
pieces. -/
lemma segmentizeLoop_chain (prop total : ℝ) :
    ∀ (segs : List Line) (cum fraction fracLen : ℝ)
      (buf : List Coord) (res : List (List Coord)),
      buf ≠ [] → List.Chain' pieceLink (res ++ [buf]) →
      List.Chain' pieceLink (segmentizeLoop prop total segs cum fraction fracLen buf res)
  | [], _, _, _, _, _, _, h => by
      simpa [segmentizeLoop] using h
  | s :: rest, cum, fraction, fracLen, buf, res, hbuf, h => by
      simp only [segmentizeLoop]
      by_cases hc : fracLen ≤ cum + euclidean_length s
      · rw [if_pos hc]
        exact segmentizeLoop_chain prop total rest _ _ _ _ _
          (by simp) (chain_close hbuf h _ _)
      · rw [if_neg hc]
        exact segmentizeLoop_chain prop total rest _ _ _ _ _
          (by simp) (chain_extend hbuf h _)

/-- Claim C8: adjacent pieces of `segmentize` meet exactly — the last
coordinate of each piece equals the first coordinate of the next piece.
The loop pushes the very same boundary value into the piece it closes and
into the buffer it reopens (`query.rs` lines 326-337), so the shared
coordinate is identical (the identical bit pattern in the source). -/
theorem C8_segmentize_continuity (coords : List Coord) (n : ℕ)
    (ps : List (List Coord)) (h : segmentize coords n = some ps) :
    List.Chain' pieceLink ps := by
  cases coords with
  | nil => simp [segmentize] at h
  | cons c0 tail =>
    cases tail with
    | nil => simp [segmentize] at h
    | cons c1 rest =>
      simp only [segmentize, Option.some.injEq] at h
      subst h
      exact segmentizeLoop_chain _ _ _ _ _ _ _ _ (by simp)
        (by simp [List.chain'_singleton])

/-- Helper: the n = 2 scenario of the spec, evaluated on the source code.
The first piece happens to be correct because the skipped first segment's
length coincides with totalLength/2 on this input. -/
lemma seg_L3_2 :
    segmentize [⟨0, 0⟩, ⟨10, 0⟩, ⟨10, 10⟩] 2
      = some [[⟨0, 0⟩, ⟨10, 0⟩], [⟨10, 0⟩, ⟨10, 10⟩]] := by
  simp only [segmentize, linesOf, segmentizeLoop, plen_L3, elen_v10,
    line_interpolate_point]
  norm_num

/-- Witness for C8: the continuity theorem applied to the concrete
segmentation of [(0,0),(10,0),(10,10)] into two pieces. -/
theorem C8_segmentize_continuity_witness :
    List.Chain' pieceLink [[⟨0, 0⟩, ⟨10, 0⟩], [⟨10, 0⟩, ⟨10, 10⟩]] :=
  C8_segmentize_continuity [⟨0, 0⟩, ⟨10, 0⟩, ⟨10, 10⟩] 2 _ seg_L3_2

/-- Claim C10: on any two-coordinate linestring, `split_line` returns just
the start coordinate for every fraction: `lns.nth(0)` consumes the only
segment while seeding the output, so the walk has nothing left to visit and
the interpolation stop condition is never evaluated. -/
theorem C10_split_line_two_coords (c0 c1 : Coord) (fraction : ℝ) :
    split_line [c0, c1] fraction = some [c0] := rfl

end Rsgeo
